import Mathlib

/-!
Shallow embedding of the sfdx-falcon recipe engine pieces named by the
claims, translated from the repository sources:

* modules/sfdx-falcon-recipe/types/index.ts — SfdxFalconError2, SfdxCliError
* modules/sfdx-falcon-util/git.ts — repo-name and Git-URI helpers
* modules/sfdx-falcon-recipe/engines/appx/actions/create-user.ts
* modules/sfdx-falcon-recipe/engines/appx/actions/configure-admin-user.ts,
  deploy-metadata.ts, delete-scratch-org.ts
* commands/falcon/demo/deploy.ts — FalconDemoDeploy

JavaScript specifics are modelled explicitly: an absent (undefined) object
field is Option.none, a promise outcome is an Except value (error = the
promise rejected / a value was thrown), and JavaScript falsiness of the
empty string is spelled out wherever the source relies on it.  Calls into
external collaborators (JSON.parse, the executors, readConfigFile,
createUniqueUsername) are seams: their outcome is an explicit argument of
the embedded function, exactly where the source awaits or try/catches them.
-/

/-- Minimal model of a JavaScript/JSON value, as produced by JSON.parse and
as stored in the untyped (any) fields of CliErrorDetail. -/
inductive JVal where
  | null
  | bool (b : Bool)
  | num (n : Int)
  | str (s : String)
  | arr (elems : List JVal)
  | obj (fields : List (String × JVal))

/-- JavaScript falsiness of a JVal: null, false, 0 and the empty string are
falsy; every array and object is truthy. -/
def JVal.falsy : JVal → Bool
  | .null => true
  | .bool b => !b
  | .num n => n == 0
  | .str s => s == ""
  | .arr _ => false
  | .obj _ => false

/-- JavaScript `x || d` where x is a possibly-undefined string: the default
d is used when x is undefined or the empty string (both falsy). -/
def jsOrStr (x : Option String) (d : String) : String :=
  match x with
  | some s => if s == "" then d else s
  | none => d

/-- JavaScript `x || d` where x is a possibly-undefined JSON value. -/
def jsOrJVal (x : Option JVal) (d : JVal) : JVal :=
  match x with
  | some v => if v.falsy then d else v
  | none => d

/-- Model of the CliErrorDetail interface (types/index.ts lines 23-30):
status and result are required, the rest are optional fields. -/
structure CliErrorDetail where
  status : Int
  result : JVal
  name : Option String
  message : Option String
  stack : Option String
  warnings : Option JVal

/-- Model of the SfdxFalconError2 class (types/index.ts): the fields its
constructor sets that the claims observe. -/
structure SfdxFalconError2 where
  message : String
  name : String
  falconStack : String
  deriving DecidableEq

/-- The SfdxFalconError2 constructor (types/index.ts lines 60-72): name
defaults to SfdxFalconError2 when absent or empty (falsy), and the falcon
stack is initialized to name-colon-message. -/
def SfdxFalconError2.construct (message : String) (name : Option String) : SfdxFalconError2 :=
  let thisName := jsOrStr name ("SfdxFalconError2")
  { message := message, name := thisName, falconStack := thisName ++ ": " ++ message }

/-- A JavaScript value reaching SfdxFalconError2.wrap: either already an
SfdxFalconError2 instance, some other Error (carrying a name and message),
or a non-Error value carried as its template-literal string rendering. -/
inductive ErrValue where
  | falconErr (e : SfdxFalconError2)
  | plainErr (name message : String)
  | nonError (rendered : String)
  deriving DecidableEq

/-- SfdxFalconError2.wrap (types/index.ts lines 150-168): returns an
SfdxFalconError2 unchanged; wraps any other Error keeping its message; and
renders a non-Error value into the message of a new error. -/
def SfdxFalconError2.wrap : ErrValue → SfdxFalconError2
  | .falconErr e => e
  | .plainErr n m => SfdxFalconError2.construct m (some ("SfdxFalconError2 (" ++ n ++ ")"))
  | .nonError s => SfdxFalconError2.construct s (some ("SfdxFalconError2 (Unknown)"))

/-- Re-inject a wrapped error into the domain of wrap, as happens when a
wrapped error is thrown again and observed by another boundary. -/
def ErrValue.ofFalcon (e : SfdxFalconError2) : ErrValue := .falconErr e

/-- Model of the SfdxCliError class: the SfdxFalconError2 base fields plus
the specialized cliError detail. -/
structure SfdxCliError where
  message : String
  name : String
  falconStack : String
  cliError : CliErrorDetail

/-- The fields the SfdxCliError constructor reads off the object returned
by JSON.parse; none models an absent (undefined) field. -/
structure ParsedCliError where
  name : Option String
  message : Option String
  status : Option Int
  stack : Option String
  result : Option JVal
  warnings : Option JVal

/-- The SfdxCliError constructor (types/index.ts lines 196-226).  The
parsed argument is the outcome of JSON.parse on stdErrBuffer: none models
the catch branch (the buffer did not parse, or the parsed value did not
support member access).  On success: name/message/stack/result/warnings
are copied with JavaScript or-defaults, and status is copied whenever it is
not undefined (so a parsed status of 0 is kept).  On failure: the synthetic
ERROR_NOT_PARSEABLE detail with status 999 and the raw buffer preserved
under result.rawResult.  A detail line is then added to the falcon stack. -/
def SfdxCliError.construct (stdErrBuffer : String) (message : String)
    (parsed : Option ParsedCliError) : SfdxCliError :=
  let base := SfdxFalconError2.construct ("ERROR_SALESFORCE_CLI: " ++ message) (some ("SfdxCliError"))
  let cliError : CliErrorDetail :=
    match parsed with
    | some p =>
      { status := match p.status with | some n => n | none => 1
      , result := jsOrJVal p.result (JVal.obj [])
      , name := some (jsOrStr p.name ("Unknown CLI Error"))
      , message := some (jsOrStr p.message ("Unknown CLI Error"))
      , stack := some (jsOrStr p.stack base.name)
      , warnings := some (jsOrJVal p.warnings (JVal.arr [])) }
    | none =>
      { status := 999
      , result := JVal.obj [("rawResult", JVal.str stdErrBuffer)]
      , name := some ("ERROR_NOT_PARSEABLE")
      , message := some ("Unparseable CLI Error (see cliError.result.rawResult for raw error)")
      , stack := some ("Unparseable CLI Error (see cliError.result.rawResult for raw error)")
      , warnings := some (JVal.arr []) }
  { message := base.message
  , name := base.name
  , falconStack := base.falconStack ++ "\n    " ++ (cliError.name.getD ("")) ++ ": " ++ (cliError.message.getD (""))
  , cliError := cliError }

/-- Action options are an untyped object in the source; modelled as a
partial map from option names to (string) values. -/
def ActionOptions := String → Option String

/-- CreateUserAction.validateActionOptions (create-user.ts lines 596-599):
synchronously throws, naming the first missing required key; the code
checks definitionFile first and then sfdxUserAlias. -/
def CreateUserAction.validateActionOptions (actionOptions : ActionOptions) : Except String Unit :=
  if (actionOptions ("definitionFile")).isNone then
    Except.error ("ERROR_MISSING_OPTION: definitionFile")
  else if (actionOptions ("sfdxUserAlias")).isNone then
    Except.error ("ERROR_MISSING_OPTION: sfdxUserAlias")
  else
    Except.ok ()

/-- determineDefaultPassword (create-user.ts lines 696-703): the branch
condition is JavaScript `if (not suggestedPassword)`, true when the
suggested password is undefined or the empty string. -/
def determineDefaultPassword (suggestedPassword : Option String) : String :=
  if jsOrStr suggestedPassword ("") == "" then
    "1HappyCloud"
  else
    jsOrStr suggestedPassword ("")

/-- The user definition object read from the definition file, projected to
the fields create-user.ts reads. -/
structure UserDefinition where
  Username : String
  password : Option String

/-- The standard executor message set. -/
structure ExecutorMessages where
  progressMsg : String
  errorMsg : String
  successMsg : String
  deriving DecidableEq

/-- The detail object CreateUserAction.executeAction fills in (create-user.ts
lines 624-655); each field starts out null and is set as the action runs. -/
structure CreateUserDetail where
  userDefinition : Option UserDefinition
  uniqueUsername : Option String
  defaultPassword : Option String
  executorMessages : Option ExecutorMessages

/-- CreateUserAction.executeAction, from the point the user definition file
has been read up to the executor call (create-user.ts lines 633-655): the
external createUniqueUsername utility is passed in as a function, and the
userDefinition argument is the object readConfigFile resolved with. -/
def CreateUserAction.executeActionDetail (createUniqueUsername : String → String)
    (targetOrgAlias : String) (userDefinition : UserDefinition) : CreateUserDetail :=
  let uniqueUsername := createUniqueUsername userDefinition.Username
  let defaultPassword := determineDefaultPassword userDefinition.password
  { userDefinition := some userDefinition
  , uniqueUsername := some uniqueUsername
  , defaultPassword := some defaultPassword
  , executorMessages := some
      { progressMsg := "Creating User " ++ uniqueUsername ++ " in " ++ targetOrgAlias
      , errorMsg := "Failed to create User " ++ uniqueUsername ++ " in " ++ targetOrgAlias
      , successMsg := "User " ++ uniqueUsername ++ " created successfully" } }


/-- The slice of AppxEngineActionContext that delete-scratch-org reads:
the target org alias, the dev hub alias and the log level. -/
structure AppxEngineActionContext where
  targetOrgAlias : String
  devHubAlias : String
  logLevel : String
  deriving DecidableEq

/-- Model of SfdxShellResult (an external executor type): the status field
the catch handler overwrites, plus an opaque remainder standing for the
rest of the object, so preservation of everything else can be stated. -/
structure SfdxShellResult where
  status : Int
  raw : String
  deriving DecidableEq

/-- The SFDX command definition composed by DeleteScratchOrgAction
(delete-scratch-org.ts lines 441-455). -/
structure DeleteScratchOrgCommandDef where
  command : String
  progressMsg : String
  errorMsg : String
  successMsg : String
  commandArgs : List String
  flagTargetUsername : String
  flagTargetDevHubUsername : String
  flagNoPrompt : Bool
  flagJson : Bool
  flagLogLevel : String
  deriving DecidableEq

/-- The command definition DeleteScratchOrgAction.executeAction assigns to
this.sfdxCommandDef before invoking the executor. -/
def DeleteScratchOrgAction.sfdxCommandDef (ctx : AppxEngineActionContext)
    (scratchOrgAlias : String) : DeleteScratchOrgCommandDef :=
  { command := "force:org:delete"
  , progressMsg := "Marking scratch org " ++ scratchOrgAlias ++ " for deletion"
  , errorMsg := "Request to mark scratch org " ++ scratchOrgAlias ++ " for deletion failed"
  , successMsg := "Scratch org " ++ scratchOrgAlias ++ " successfully marked for deletion"
  , commandArgs := []
  , flagTargetUsername := ctx.targetOrgAlias
  , flagTargetDevHubUsername := ctx.devHubAlias
  , flagNoPrompt := true
  , flagJson := true
  , flagLogLevel := ctx.logLevel }

/-- DeleteScratchOrgAction.executeAction (delete-scratch-org.ts lines
433-469): composes the force:org:delete command and awaits the executor;
the catch handler suppresses a rejection by overriding the rejected
result's status to 0 and returning it, so the method always resolves (its
result type is a plain SfdxShellResult, not an Except). -/
def DeleteScratchOrgAction.executeAction (ctx : AppxEngineActionContext)
    (scratchOrgAlias : String)
    (executeSfdxCommand : DeleteScratchOrgCommandDef → Except SfdxShellResult SfdxShellResult) :
    SfdxShellResult :=
  match executeSfdxCommand (DeleteScratchOrgAction.sfdxCommandDef ctx scratchOrgAlias) with
  | .ok sfdxShellResult => sfdxShellResult
  | .error sfdxShellResult => { sfdxShellResult with status := 0 }

/-- The slice of context deploy-metadata reads: the target org alias, the
project's mdapi source path and the log level. -/
structure DeployMetadataContext where
  targetOrgAlias : String
  mdapiSourcePath : String
  logLevel : String
  deriving DecidableEq

/-- Model of Node path.join for the plain segments the action passes it:
the two segments joined by the path separator. -/
def pathJoin (a b : String) : String := a ++ "/" ++ b

/-- The SFDX command definition composed by DeployMetadataAction
(deploy-metadata.ts lines 312-327). -/
structure DeployMetadataCommandDef where
  command : String
  progressMsg : String
  errorMsg : String
  successMsg : String
  commandArgs : List String
  flagTargetUsername : String
  flagDeployDir : String
  flagWait : Int
  flagTestLevel : String
  flagJson : Bool
  flagLogLevel : String
  deriving DecidableEq

/-- The detail object DeployMetadataAction.executeAction fills in. -/
structure DeployMetadataDetail where
  executorMessages : Option ExecutorMessages
  sfdxCommandDef : Option DeployMetadataCommandDef
  deriving DecidableEq

/-- DeployMetadataAction.executeAction up to the executor call
(deploy-metadata.ts lines 302-329): defines the executor messages, then
composes the force:mdapi:deploy command definition and stores both in the
action result detail. -/
def DeployMetadataAction.executeActionDetail (ctx : DeployMetadataContext)
    (mdapiSource : String) : DeployMetadataDetail :=
  let executorMessages : ExecutorMessages :=
    { progressMsg := "Deploying MDAPI source from " ++ mdapiSource
    , errorMsg := "Deployment failed for MDAPI source " ++ mdapiSource
    , successMsg := "Deployment of " ++ mdapiSource ++ " succeeded" }
  let sfdxCommandDef : DeployMetadataCommandDef :=
    { command := "force:mdapi:deploy"
    , progressMsg := executorMessages.progressMsg
    , errorMsg := executorMessages.errorMsg
    , successMsg := executorMessages.successMsg
    , commandArgs := []
    , flagTargetUsername := ctx.targetOrgAlias
    , flagDeployDir := pathJoin ctx.mdapiSourcePath mdapiSource
    , flagWait := 5
    , flagTestLevel := "NoTestRun"
    , flagJson := true
    , flagLogLevel := ctx.logLevel }
  { executorMessages := some executorMessages, sfdxCommandDef := some sfdxCommandDef }

/-- Leading-segment equality: the first list read as a whole stands at the
front of the second. -/
def firstSegEq : List Char → List Char → Bool
  | [], _ => true
  | _ :: _, [] => false
  | p :: ps, c :: cs => p == c && firstSegEq ps cs

/-- Does the pattern occur contiguously anywhere in the text. -/
def hasSubseg (pat : List Char) : List Char → Bool
  | [] => firstSegEq pat []
  | c :: cs => firstSegEq pat (c :: cs) || hasSubseg pat cs

/-- JavaScript RegExp.test for the plain-text patterns used by onError in
deploy.ts: true when the pattern occurs as a substring of the text. -/
def RegExp.test (pat s : String) : Bool := hasSubseg pat.data s.data

/-- The stdErrJson object carried by a FalconError; onError reads only its
message. -/
structure StdErrJson where
  message : String
  deriving DecidableEq

/-- FalconError (an external falcon-types import): the fields deploy.ts
reads in onError. -/
structure FalconError where
  message : String
  stdErrJson : StdErrJson
  deriving DecidableEq

/-- Model of SfdxErrorConfig as built by onError: bundle coordinates, the
error tokens set from the falcon error, and the remediation actions added
by the substring matching. -/
structure SfdxErrorConfig where
  packageName : String
  bundleName : String
  errorMessageKey : String
  errorTokens : List String
  actions : List (String × List String)
  deriving DecidableEq

/-- Model of the SfdxError created from an SfdxErrorConfig, with the
command name stamped on it. -/
structure SfdxError where
  config : SfdxErrorConfig
  commandName : String
  deriving DecidableEq

/-- FalconDemoDeploy.onError (deploy.ts lines 191-224): builds an
SfdxErrorConfig for the errDefault message, sets the error tokens from the
falcon error and its stdErrJson message, adds remediation actions when the
SFDX error message matches one of the known dev-test patterns, then
creates an SfdxError stamped falcon:demo:deploy and throws it (onError
never returns normally). -/
def FalconDemoDeploy.onError (falconError : FalconError) : SfdxError :=
  let stdError := falconError.stdErrJson
  let base : SfdxErrorConfig :=
    { packageName := "sfdx-falcon"
    , bundleName := "falconErrorMessages"
    , errorMessageKey := "errDefault"
    , errorTokens := [falconError.message, stdError.message]
    , actions := [] }
  let cfg :=
    if RegExp.test ("VMC_DEV_TEST1") stdError.message then
      { base with actions := [("actionDevTest1", ["TEST_ONE"]), ("actionDevTest2", ["TEST_TWO"])] }
    else if RegExp.test ("VMC_DEV_TEST2") stdError.message then
      { base with actions := [("actionDevTest2", ["TEST_THREE"])] }
    else if RegExp.test ("VMC_DEV_TEST3") stdError.message then
      { base with actions := [("actionDevTest2", ["TEST_FOUR"])] }
    else base
  { config := cfg, commandName := "falcon:demo:deploy" }

/-- The result slot of the jsonResponse object: either the raw sentinel
string it is initialized with, or the status report stored on success. -/
inductive ResponseResult (α : Type) where
  | raw (s : String)
  | report (r : α)
  deriving DecidableEq

/-- The FalconJsonResponse shape deploy.ts returns: a numeric status and
the result slot. -/
structure FalconJsonResponse (α : Type) where
  status : Int
  result : ResponseResult α
  deriving DecidableEq

/-- FalconDemoDeploy.run from the point the AppxDemoProject is resolved
(deploy.ts lines 136-158).  jsonResponse is initialized to status 1 with
the ERROR_RESPONSE_NOT_SET sentinel; a validateDemo resolution routes
through onSuccess (lines 171-179), which overwrites jsonResponse with
status 0 and the status report, and run returns it; a validateDemo
rejection routes through onError, which throws, so run itself rejects and
the initial jsonResponse is never returned.  The type variable stands for
FalconStatusReport, an external helper class that run only stores. -/
def FalconDemoDeploy.run {α : Type} (validateDemoOutcome : Except FalconError α) :
    Except SfdxError (FalconJsonResponse α) :=
  let jsonResponse : FalconJsonResponse α :=
    { status := 1, result := ResponseResult.raw ("ERROR_RESPONSE_NOT_SET") }
  match validateDemoOutcome with
  | .ok statusReport =>
      Except.ok { jsonResponse with status := 0, result := ResponseResult.report statusReport }
  | .error falconError => Except.error (FalconDemoDeploy.onError falconError)

/-- A word character of the JavaScript regex patterns in git.ts: letter,
digit or underscore. -/
def jsWordChar (c : Char) : Bool := c.isAlphanum || c == '_'

/-- A character the repo-name group accepts: a word character or the
hyphen (the pattern group is one-or-more of word-char-or-hyphen). -/
def repoNameChar (c : Char) : Bool := jsWordChar c || c == '-'

/-- The decomposition behind a match of repoNameRegEx (git.ts line 25):
the pattern is a slash, a nonempty run of word-or-hyphen characters,
".git" and optional trailing slashes, anchored at the end of the string.
Because of the end anchor a match exists exactly when the string ends
that way; this returns the (reversed) name run and the trailing slash
run, or none when no tail matches. -/
def repoNameMatchParts (s : String) : Option (List Char × List Char) :=
  let rev := s.data.reverse
  let slashes := rev.takeWhile (fun c => c == '/')
  let rest := rev.drop slashes.length
  if rest.take 4 == ['t', 'i', 'g', '.'] then
    let rest2 := rest.drop 4
    let nameRev := rest2.takeWhile repoNameChar
    match nameRev, rest2.drop nameRev.length with
    | _ :: _, '/' :: _ => some (nameRev, slashes)
    | _, _ => none
  else none

/-- exec's match[0]: the whole matched tail reassembled from the
decomposition (the slash run is its own reverse, all slashes). -/
def repoNameRegExExec (s : String) : Option (List Char) :=
  match repoNameMatchParts s with
  | some (nameRev, slashes) =>
      some ('/' :: (nameRev.reverse ++ ['.', 'g', 'i', 't'] ++ slashes))
  | none => none

/-- JavaScript String.lastIndexOf for one character, index accumulator. -/
def lastIndexOfCharAux (c : Char) : List Char → Nat → Option Nat → Option Nat
  | [], _, acc => acc
  | x :: xs, i, acc => lastIndexOfCharAux c xs (i + 1) (if x == c then some i else acc)

/-- JavaScript String.lastIndexOf for one character: the index of its last
occurrence, or none (JavaScript -1) when it does not occur. -/
def lastIndexOfChar (cs : List Char) (c : Char) : Option Nat :=
  lastIndexOfCharAux c cs 0 none

/-- The two ways a call to getRepoNameFromUri can throw: the TypeError
raised by indexing the null that exec returns on a non-matching URI, and
the UnreadableRepoName SfdxFalconError raised by the empty-name guard. -/
inductive RepoNameFault where
  | typeErrorNullIndex
  | unreadableRepoName
  deriving DecidableEq

/-- getRepoNameFromUri (git.ts lines 299-330).  The result of exec is
indexed unconditionally, so a non-matching URI faults with a TypeError
before the UnreadableRepoName guard can be reached.  On a match,
everything from the last dot onwards is stripped (a JavaScript
substring(0, -1) for a missing dot clamps to the empty string), then the
leading slash is stripped, and the guard throws UnreadableRepoName when
nothing is left. -/
def getRepoNameFromUri (gitRemoteUri : String) : Except RepoNameFault String :=
  match repoNameRegExExec gitRemoteUri with
  | none => Except.error RepoNameFault.typeErrorNullIndex
  | some m =>
    let repoName1 := match lastIndexOfChar m '.' with
      | none => []
      | some i => m.take i
    let repoName2 := repoName1.drop 1
    if repoName2.isEmpty then Except.error RepoNameFault.unreadableRepoName
    else Except.ok (String.mk repoName2)

/-- Regular-expression syntax for the git-URI pattern: empty language,
empty string, a single character from a class, sequencing, alternation and
Kleene star. -/
inductive RE where
  | emp
  | eps
  | cls (f : Char → Bool)
  | seq (a b : RE)
  | alt (a b : RE)
  | star (a : RE)

/-- Does the expression accept the empty string. -/
def RE.nullable : RE → Bool
  | .emp => false
  | .eps => true
  | .cls _ => false
  | .seq a b => a.nullable && b.nullable
  | .alt a b => a.nullable || b.nullable
  | .star _ => true

/-- Sequencing with unit and zero collapsed, to keep derivatives small. -/
def RE.mkSeq (a b : RE) : RE :=
  match a, b with
  | .emp, _ => .emp
  | _, .emp => .emp
  | .eps, b => b
  | a, .eps => a
  | a, b => .seq a b

/-- Alternation with the zero collapsed, to keep derivatives small. -/
def RE.mkAlt (a b : RE) : RE :=
  match a, b with
  | .emp, b => b
  | a, .emp => a
  | a, b => .alt a b

/-- Brzozowski derivative of the expression by one character. -/
def RE.deriv : RE → Char → RE
  | .emp, _ => .emp
  | .eps, _ => .emp
  | .cls f, c => if f c then .eps else .emp
  | .seq a b, c =>
      if a.nullable then RE.mkAlt (RE.mkSeq (a.deriv c) b) (b.deriv c)
      else RE.mkSeq (a.deriv c) b
  | .alt a b, c => RE.mkAlt (a.deriv c) (b.deriv c)
  | .star a, c => RE.mkSeq (a.deriv c) (.star a)

/-- Whole-list matching by iterated derivatives. -/
def RE.matchList (r : RE) (cs : List Char) : Bool :=
  (cs.foldl RE.deriv r).nullable

/-- A single literal character. -/
def RE.chr (c : Char) : RE := .cls (fun x => x == c)

/-- A literal sequence of characters. -/
def RE.lit (s : String) : RE := s.data.foldr (fun c r => RE.seq (RE.chr c) r) .eps

/-- One or more repetitions. -/
def RE.plus (r : RE) : RE := RE.seq r (.star r)

/-- Zero or one occurrence. -/
def RE.question (r : RE) : RE := RE.alt r .eps

/-- The character class of the git-URI body group: word characters plus
dot, at-sign, colon, slash, hyphen and tilde. -/
def gitUriBodyChar (c : Char) : Bool :=
  jsWordChar c || c == '.' || c == '@' || c == ':' || c == '/' || c == '-' || c == '~'

/-- The part of gitUriRegEx after the leading alternation: a colon with an
optional double slash, the body group, ".git" and an optional slash,
anchored at the end. -/
def gitUriTailRE : RE :=
  RE.seq (RE.seq (RE.chr ':') (RE.question (RE.lit ("//"))))
    (RE.seq (RE.plus (RE.cls gitUriBodyChar))
      (RE.seq (RE.lit (".git")) (RE.question (RE.chr '/'))))

/-- The caret-anchored first alternative of gitUriRegEx: git, ssh, http or
https at the start of the string, then the tail. -/
def gitUriBranchA : RE :=
  RE.seq (RE.alt (RE.lit ("git")) (RE.alt (RE.lit ("ssh"))
    (RE.seq (RE.lit ("http")) (RE.question (RE.chr 's'))))) gitUriTailRE

/-- The unanchored second alternative of gitUriRegEx: git@ followed by one
or more word-or-dot characters, then the tail. -/
def gitUriBranchB : RE :=
  RE.seq (RE.seq (RE.lit ("git@")) (RE.plus (RE.cls (fun c => jsWordChar c || c == '.'))))
    gitUriTailRE

/-- gitUriRegEx.test (git.ts line 26).  The caret anchors only the first
alternative to the start of the string, while the git@ alternative may
begin at any offset; the dollar anchors every match to the end, so test is
true when the whole string matches branch A or some tail of the string
matches branch B. -/
def gitUriRegExTest (s : String) : Bool :=
  RE.matchList gitUriBranchA s.data
  || (List.range (s.data.length + 1)).any (fun i => RE.matchList gitUriBranchB (s.data.drop i))

/-- isGitUriValid (git.ts lines 498-521): tests the URI against
gitUriRegEx; when that passes and an acceptedProtocols pattern was given
the result is that pattern's test on the same URI, otherwise true; when
the general test fails the result is false.  The optional acceptedProtocols
RegExp is modelled by its test function. -/
def isGitUriValid (gitRemoteUri : String) (acceptedProtocols : Option (String → Bool)) : Bool :=
  if gitUriRegExTest gitRemoteUri then
    match acceptedProtocols with
    | some p => p gitRemoteUri
    | none => true
  else
    false


theorem lastIndexOfCharAux_no_occ (c : Char) (ys : List Char) (h : c ∉ ys) :
    ∀ i acc, lastIndexOfCharAux c ys i acc = acc := by
  induction ys with
  | nil => intro i acc; rfl
  | cons y ys ih =>
    intro i acc
    have hy : ¬ (y == c) = true := by
      simp only [beq_iff_eq]
      intro he
      exact h (he ▸ List.mem_cons_self y ys)
    have hys : c ∉ ys := fun hm => h (List.mem_cons_of_mem y hm)
    simp only [lastIndexOfCharAux, hy, if_false]
    exact ih hys (i + 1) acc

theorem lastIndexOfCharAux_append (c : Char) (xs ys : List Char) (h : c ∉ ys) :
    ∀ i acc, lastIndexOfCharAux c (xs ++ c :: ys) i acc = some (i + xs.length) := by
  induction xs with
  | nil =>
    intro i acc
    simp only [List.nil_append, lastIndexOfCharAux, beq_self_eq_true, if_true]
    rw [lastIndexOfCharAux_no_occ c ys h]
    simp
  | cons x xs ih =>
    intro i acc
    calc lastIndexOfCharAux c ((x :: xs) ++ c :: ys) i acc
        = lastIndexOfCharAux c (xs ++ c :: ys) (i + 1)
            (if x == c then some i else acc) := rfl
      _ = some ((i + 1) + xs.length) := ih (i + 1) _
      _ = some (i + (x :: xs).length) := by
            simp only [List.length_cons]
            congr 1
            omega

theorem take_own_length_append (l₁ l₂ : List Char) : (l₁ ++ l₂).take l₁.length = l₁ := by
  induction l₁ with
  | nil => simp
  | cons a l ih => simp [ih]

theorem repoNameMatchParts_some_shape (s : String) (nr sl : List Char)
    (h : repoNameMatchParts s = some (nr, sl)) :
    nr ≠ [] ∧ (∀ c ∈ nr, repoNameChar c = true) ∧ (∀ c ∈ sl, c = '/') := by
  simp only [repoNameMatchParts] at h
  split at h
  case isTrue hcond =>
    split at h
    case _ =>
      rcases h with ⟨hnrEq, hslEq⟩
      rename_i hTake hDrop
      refine ⟨?_, ?_, ?_⟩
      · rw [hTake]
        simp
      · intro c hc
        exact List.mem_takeWhile_imp hc
      · intro c hc
        have := List.mem_takeWhile_imp hc
        simpa [beq_iff_eq] using this
    case _ => exact absurd h (by simp)
  case isFalse hcond => exact absurd h (by simp)

theorem repoNameRegExExec_some_shape (s : String) (m : List Char)
    (h : repoNameRegExExec s = some m) :
    ∃ nr sl, nr ≠ [] ∧ (∀ c ∈ sl, c = '/')
      ∧ m = '/' :: (nr.reverse ++ ['.', 'g', 'i', 't'] ++ sl) := by
  unfold repoNameRegExExec at h
  cases hp : repoNameMatchParts s with
  | none => rw [hp] at h; exact absurd h (by simp)
  | some parts =>
    obtain ⟨nr, sl⟩ := parts
    rw [hp] at h
    obtain ⟨hne, _, hsl⟩ := repoNameMatchParts_some_shape s nr sl hp
    exact ⟨nr, sl, hne, hsl, ((Option.some.injEq _ _).mp h).symm⟩

theorem getRepoNameFromUri_ok_of_match (s : String) (m : List Char)
    (h : repoNameRegExExec s = some m) :
    ∃ n, getRepoNameFromUri s = Except.ok n ∧ n ≠ "" := by
  obtain ⟨nr, sl, hne, hsl, hm⟩ := repoNameRegExExec_some_shape s m h
  have hdotSl : '.' ∉ ('g' :: 'i' :: 't' :: sl) := by
    simp only [List.mem_cons]
    push_neg
    refine ⟨by decide, by decide, by decide, ?_⟩
    intro hmem
    exact absurd (hsl '.' hmem) (by decide)
  have hmassoc : m = ('/' :: nr.reverse) ++ '.' :: ('g' :: 'i' :: 't' :: sl) := by
    rw [hm]
    simp
  have hdot : lastIndexOfChar m '.' = some (0 + ('/' :: nr.reverse).length) := by
    rw [hmassoc]
    exact lastIndexOfCharAux_append '.' _ _ hdotSl 0 none
  have htake : m.take (0 + ('/' :: nr.reverse).length) = '/' :: nr.reverse := by
    rw [hmassoc]
    simp only [Nat.zero_add]
    exact take_own_length_append _ _
  have hrevne : nr.reverse ≠ [] := by simpa using hne
  refine ⟨String.mk nr.reverse, ?_, ?_⟩
  · unfold getRepoNameFromUri
    rw [h]
    dsimp only
    rw [hdot]
    dsimp only
    rw [htake]
    simp only [List.drop_succ_cons, List.drop_zero]
    simp [List.isEmpty_iff, hrevne]
  · intro hEq
    have hdata : nr.reverse = [] := by
      have := congrArg String.data hEq
      simpa using this
    exact hrevne hdata

/-- Claim C9: getRepoNameFromUri is partial over strings.  When the
repo-name pattern matches no tail of the URI, exec yields null and the
unconditional indexing faults (TypeError) before the function's own
UnreadableRepoName error can be raised; when a tail matches, the function
returns the matched name with the leading slash and the .git extension
stripped, and that name is never empty. -/
theorem getRepoNameFromUri_partial_spec (s : String) :
    (repoNameRegExExec s = none →
      getRepoNameFromUri s = Except.error RepoNameFault.typeErrorNullIndex)
    ∧ (∀ m, repoNameRegExExec s = some m →
      ∃ n, getRepoNameFromUri s = Except.ok n ∧ n ≠ "") := by
  constructor
  · intro h
    unfold getRepoNameFromUri
    rw [h]
  · intro m h
    exact getRepoNameFromUri_ok_of_match s m h

/-- Witness for C9: a matching URI yields the nonempty repo name, and a
non-matching string faults with the TypeError. -/
theorem getRepoNameFromUri_partial_spec_witness :
    (∃ n, getRepoNameFromUri ("https://github.com/me/my-repo.git") = Except.ok n ∧ n ≠ "")
    ∧ getRepoNameFromUri ("hello") = Except.error RepoNameFault.typeErrorNullIndex :=
  ⟨(getRepoNameFromUri_partial_spec ("https://github.com/me/my-repo.git")).2
      ("/my-repo.git".data) (by rfl),
   (getRepoNameFromUri_partial_spec ("hello")).1 (by rfl)⟩

/-- Claim C1: every rejection of the Executor call made by
delete-scratch-org's executeAction is swallowed: the catch handler
overrides the outcome's status to 0 and executeAction resolves normally
with that result (its return type is a plain SfdxShellResult, so it can
never reject), regardless of what the underlying error was. -/
theorem DeleteScratchOrgAction.executeAction_swallows_rejection
    (ctx : AppxEngineActionContext) (scratchOrgAlias : String)
    (executeSfdxCommand : DeleteScratchOrgCommandDef → Except SfdxShellResult SfdxShellResult)
    (r : SfdxShellResult)
    (hrej : executeSfdxCommand (DeleteScratchOrgAction.sfdxCommandDef ctx scratchOrgAlias)
      = Except.error r) :
    DeleteScratchOrgAction.executeAction ctx scratchOrgAlias executeSfdxCommand
      = { r with status := 0 }
    ∧ (DeleteScratchOrgAction.executeAction ctx scratchOrgAlias executeSfdxCommand).status = 0 := by
  unfold DeleteScratchOrgAction.executeAction
  rw [hrej]
  exact ⟨rfl, rfl⟩

/-- Witness for C1: a concrete rejection (a not-found scratch org) is
turned into a status-0 result. -/
theorem DeleteScratchOrgAction.executeAction_swallows_rejection_witness :
    DeleteScratchOrgAction.executeAction ⟨"scratchA", "devHub", "error"⟩ ("scratchA")
      (fun _ => Except.error (⟨1, "NOT_FOUND"⟩ : SfdxShellResult))
      = (⟨0, "NOT_FOUND"⟩ : SfdxShellResult) :=
  (DeleteScratchOrgAction.executeAction_swallows_rejection ⟨"scratchA", "devHub", "error"⟩
    ("scratchA") (fun _ => Except.error (⟨1, "NOT_FOUND"⟩ : SfdxShellResult))
    (⟨1, "NOT_FOUND"⟩ : SfdxShellResult) rfl).1

/-- An options object carrying definitionFile and userAlias (the two keys
the claim calls required) but not sfdxUserAlias. -/
def c2Options : ActionOptions := fun key =>
  if key == "definitionFile" then some ("user.json")
  else if key == "userAlias" then some ("myAlias")
  else none

/-- Counterexample to claim C2 as stated: with both definitionFile and
userAlias present, validateActionOptions still throws, because the second
required key the code checks is sfdxUserAlias, not userAlias. -/
theorem CreateUserAction.validateActionOptions_userAlias_not_required :
    c2Options ("definitionFile") = some ("user.json")
    ∧ c2Options ("userAlias") = some ("myAlias")
    ∧ CreateUserAction.validateActionOptions c2Options
        = Except.error ("ERROR_MISSING_OPTION: sfdxUserAlias") :=
  ⟨rfl, rfl, rfl⟩

/-- Claim C2 (amended): validateActionOptions is synchronous and throws a
validation error naming the first missing required key among definitionFile
and sfdxUserAlias (definitionFile checked first), and returns normally
exactly when both are present. -/
theorem CreateUserAction.validateActionOptions_spec (opts : ActionOptions) :
    (opts ("definitionFile") = none →
      CreateUserAction.validateActionOptions opts
        = Except.error ("ERROR_MISSING_OPTION: definitionFile"))
    ∧ (∀ v, opts ("definitionFile") = some v → opts ("sfdxUserAlias") = none →
      CreateUserAction.validateActionOptions opts
        = Except.error ("ERROR_MISSING_OPTION: sfdxUserAlias"))
    ∧ (∀ v w, opts ("definitionFile") = some v → opts ("sfdxUserAlias") = some w →
      CreateUserAction.validateActionOptions opts = Except.ok ()) := by
  unfold CreateUserAction.validateActionOptions
  refine ⟨?_, ?_, ?_⟩
  · intro h
    rw [h]
    rfl
  · intro v h1 h2
    rw [h1, h2]
    rfl
  · intro v w h1 h2
    rw [h1, h2]
    rfl

/-- Options object with no keys at all. -/
def c2OptionsNone : ActionOptions := fun _ => none

/-- Options object with both keys the code requires. -/
def c2OptionsFull : ActionOptions := fun key =>
  if key == "definitionFile" then some ("user.json")
  else if key == "sfdxUserAlias" then some ("uAlias")
  else none

/-- Witness for C2 (amended) at three concrete option objects: nothing
present, sfdxUserAlias missing, and both present. -/
theorem CreateUserAction.validateActionOptions_spec_witness :
    CreateUserAction.validateActionOptions c2OptionsNone
      = Except.error ("ERROR_MISSING_OPTION: definitionFile")
    ∧ CreateUserAction.validateActionOptions c2Options
      = Except.error ("ERROR_MISSING_OPTION: sfdxUserAlias")
    ∧ CreateUserAction.validateActionOptions c2OptionsFull = Except.ok () :=
  ⟨(CreateUserAction.validateActionOptions_spec c2OptionsNone).1 rfl,
   (CreateUserAction.validateActionOptions_spec c2Options).2.1 ("user.json") rfl rfl,
   (CreateUserAction.validateActionOptions_spec c2OptionsFull).2.2 ("user.json") ("uAlias") rfl rfl⟩

/-- Counterexample to claim C3 as stated: a definition file that supplies
the empty string as its password does not get that password back as-is;
the JavaScript falsiness check replaces it with the fixed default. -/
theorem determineDefaultPassword_empty_password_not_echoed :
    determineDefaultPassword (some ("")) = "1HappyCloud"
    ∧ determineDefaultPassword (some ("")) ≠ "" :=
  ⟨rfl, by decide⟩

/-- Claim C3 (amended): when the user definition read from the definition
file has no password field, the default-password helper returns the fixed
constant and the action detail's defaultPassword equals it; when the
definition supplies a nonempty password, that password is returned and
stored as-is. -/
theorem CreateUserAction.defaultPassword_spec (createUniqueUsername : String → String)
    (targetOrgAlias : String) (ud : UserDefinition) :
    (ud.password = none →
      determineDefaultPassword ud.password = "1HappyCloud"
      ∧ (CreateUserAction.executeActionDetail createUniqueUsername targetOrgAlias ud).defaultPassword
          = some ("1HappyCloud"))
    ∧ (∀ p, ud.password = some p → p ≠ "" →
      determineDefaultPassword ud.password = p
      ∧ (CreateUserAction.executeActionDetail createUniqueUsername targetOrgAlias ud).defaultPassword
          = some p) := by
  constructor
  · intro h
    constructor
    · rw [h]
      rfl
    · unfold CreateUserAction.executeActionDetail
      rw [h]
      rfl
  · intro p hp hne
    have hdet : determineDefaultPassword ud.password = p := by
      rw [hp]
      unfold determineDefaultPassword jsOrStr
      simp [hne]
    refine ⟨hdet, ?_⟩
    unfold CreateUserAction.executeActionDetail
    rw [hdet]

/-- Witness for C3 (amended): an absent password yields the fixed default
in the detail, and a concrete nonempty password is echoed. -/
theorem CreateUserAction.defaultPassword_spec_witness :
    (CreateUserAction.executeActionDetail (fun u => u) ("demoOrg")
      (⟨"u@example.com", none⟩ : UserDefinition)).defaultPassword = some ("1HappyCloud")
    ∧ determineDefaultPassword (some ("s3cret")) = "s3cret" :=
  ⟨((CreateUserAction.defaultPassword_spec (fun u => u) ("demoOrg")
      (⟨"u@example.com", none⟩ : UserDefinition)).1 rfl).2,
   ((CreateUserAction.defaultPassword_spec (fun u => u) ("demoOrg")
      (⟨"u@example.com", some ("s3cret")⟩ : UserDefinition)).2 ("s3cret") rfl (by decide)).1⟩

/-- Claim C8: determineDefaultPassword always returns a nonempty string,
and every falsy suggested password (absent or the empty string) gets the
fixed default, so an empty-string password is never echoed back. -/
theorem determineDefaultPassword_never_empty (o : Option String) :
    determineDefaultPassword o ≠ ""
    ∧ ((o = none ∨ o = some ("")) → determineDefaultPassword o = "1HappyCloud") := by
  constructor
  · cases o with
    | none => decide
    | some s =>
      by_cases hs : s = ""
      · subst hs
        decide
      · unfold determineDefaultPassword jsOrStr
        simp [hs]
  · intro h
    rcases h with h | h <;> rw [h] <;> rfl

/-- Witness for C8 at the empty-string password. -/
theorem determineDefaultPassword_never_empty_witness :
    determineDefaultPassword (some ("")) ≠ ""
    ∧ determineDefaultPassword (some ("")) = "1HappyCloud" :=
  ⟨(determineDefaultPassword_never_empty (some (""))).1,
   (determineDefaultPassword_never_empty (some (""))).2 (Or.inr rfl)⟩

/-- Claim C4: every invocation of deploy-metadata's executeAction composes
an SFDX command definition whose command is force:mdapi:deploy, whose
flags include a wait of 5, test level NoTestRun and JSON output, and whose
deploy directory joins the project's mdapi source path with the
mdapiSource option. -/
theorem DeployMetadataAction.composed_command_spec (ctx : DeployMetadataContext)
    (mdapiSource : String) :
    ∃ cmd : DeployMetadataCommandDef,
      (DeployMetadataAction.executeActionDetail ctx mdapiSource).sfdxCommandDef = some cmd
      ∧ cmd.command = "force:mdapi:deploy"
      ∧ cmd.flagWait = 5
      ∧ cmd.flagTestLevel = "NoTestRun"
      ∧ cmd.flagJson = true
      ∧ cmd.flagDeployDir = pathJoin ctx.mdapiSourcePath mdapiSource :=
  ⟨_, rfl, rfl, rfl, rfl, rfl, rfl⟩

/-- A successfully parsed stderr object whose name field is present but
empty: present-but-falsy, the edge the or-defaulting hits. -/
def c5Parsed : ParsedCliError :=
  { name := some ("")
  , message := some ("msg")
  , status := some 7
  , stack := some ("st")
  , result := some (JVal.str ("r"))
  , warnings := some (JVal.arr []) }

/-- Counterexample to claim C5 as stated: when the buffer parses to an
object whose name field is present but empty, the cliError does not carry
the parsed name; the JavaScript or-default replaces every falsy field, not
only absent ones. -/
theorem SfdxCliError.construct_defaults_present_empty_name :
    c5Parsed.name = some ("")
    ∧ (SfdxCliError.construct ("buffer") ("Unknown CLI Error") (some c5Parsed)).cliError.name
        = some ("Unknown CLI Error")
    ∧ (SfdxCliError.construct ("buffer") ("Unknown CLI Error") (some c5Parsed)).cliError.name
        ≠ c5Parsed.name :=
  ⟨rfl, rfl, by decide⟩

/-- Claim C5 (amended): when the buffer parses, the cliError carries the
parsed name, message, stack, result and warnings with the JavaScript
or-defaults applied to absent or falsy (e.g. empty-string) fields, and
status is copied exactly when present (defaulting to 1 only when the
parsed object has no status); when parsing fails, the synthetic
unparseable error has name ERROR_NOT_PARSEABLE, status 999, and the raw
buffer preserved in cliError.result.rawResult.  In both cases every
cliError field is set (the optional interface fields are all some, and
status/result are always present by shape). -/
theorem SfdxCliError.construct_spec (buf msg : String) (po : Option ParsedCliError) :
    (∀ p, po = some p →
      (SfdxCliError.construct buf msg po).cliError.status
          = (match p.status with | some n => n | none => 1)
      ∧ (SfdxCliError.construct buf msg po).cliError.name
          = some (jsOrStr p.name ("Unknown CLI Error"))
      ∧ (SfdxCliError.construct buf msg po).cliError.message
          = some (jsOrStr p.message ("Unknown CLI Error"))
      ∧ (SfdxCliError.construct buf msg po).cliError.stack
          = some (jsOrStr p.stack ("SfdxCliError"))
      ∧ (SfdxCliError.construct buf msg po).cliError.result = jsOrJVal p.result (JVal.obj [])
      ∧ (SfdxCliError.construct buf msg po).cliError.warnings
          = some (jsOrJVal p.warnings (JVal.arr [])))
    ∧ (po = none →
      (SfdxCliError.construct buf msg po).cliError.name = some ("ERROR_NOT_PARSEABLE")
      ∧ (SfdxCliError.construct buf msg po).cliError.status = 999
      ∧ (SfdxCliError.construct buf msg po).cliError.result
          = JVal.obj [("rawResult", JVal.str buf)]
      ∧ (SfdxCliError.construct buf msg po).cliError.warnings = some (JVal.arr []))
    ∧ ((SfdxCliError.construct buf msg po).cliError.name.isSome = true
      ∧ (SfdxCliError.construct buf msg po).cliError.message.isSome = true
      ∧ (SfdxCliError.construct buf msg po).cliError.stack.isSome = true
      ∧ (SfdxCliError.construct buf msg po).cliError.warnings.isSome = true) := by
  refine ⟨?_, ?_, ?_⟩
  · intro p hp
    subst hp
    exact ⟨rfl, rfl, rfl, rfl, rfl, rfl⟩
  · intro hp
    subst hp
    exact ⟨rfl, rfl, rfl, rfl⟩
  · cases po with
    | none => exact ⟨rfl, rfl, rfl, rfl⟩
    | some p => exact ⟨rfl, rfl, rfl, rfl⟩

/-- Witness for C5 (amended): the unparseable branch at a concrete buffer,
and the parsed branch at c5Parsed. -/
theorem SfdxCliError.construct_spec_witness :
    ((SfdxCliError.construct ("oops") ("Unknown CLI Error") none).cliError.status = 999
      ∧ (SfdxCliError.construct ("oops") ("Unknown CLI Error") none).cliError.result
          = JVal.obj [("rawResult", JVal.str ("oops"))])
    ∧ (SfdxCliError.construct ("b") ("m") (some c5Parsed)).cliError.message
        = some (jsOrStr c5Parsed.message ("Unknown CLI Error")) :=
  ⟨⟨((SfdxCliError.construct_spec ("oops") ("Unknown CLI Error") none).2.1 rfl).2.1,
    ((SfdxCliError.construct_spec ("oops") ("Unknown CLI Error") none).2.1 rfl).2.2.1⟩,
   ((SfdxCliError.construct_spec ("b") ("m") (some c5Parsed)).1 c5Parsed rfl).2.2.1⟩

/-- A concrete validation failure handed to run's catch path. -/
def c6FalconError : FalconError := ⟨"Demo validation failed", ⟨"ERROR_UNKNOWN"⟩⟩

/-- Counterexample to claim C6 as stated: when demo validation fails, run
does not resolve with a status-1 response; onError throws, so run rejects
and no response object is produced at all. -/
theorem FalconDemoDeploy.run_failure_does_not_resolve :
    ¬ ∃ resp : FalconJsonResponse Unit,
        FalconDemoDeploy.run (Except.error c6FalconError) = Except.ok resp
        ∧ resp.status = 1 := by
  rintro ⟨resp, h, _⟩
  simp [FalconDemoDeploy.run] at h

/-- Claim C6 (amended): run resolves with a status 0 / status-report
response when demo validation succeeds; when validation fails it rejects
with the structured SfdxError built by onError (stamped with the command
name), so every response run actually resolves with has status 0, and the
initial status-1 sentinel response is never returned. -/
theorem FalconDemoDeploy.run_spec {α : Type} (o : Except FalconError α) :
    (∀ r, o = Except.ok r →
      FalconDemoDeploy.run o
        = Except.ok (⟨0, ResponseResult.report r⟩ : FalconJsonResponse α))
    ∧ (∀ e, o = Except.error e →
      FalconDemoDeploy.run o = Except.error (FalconDemoDeploy.onError e)
      ∧ (FalconDemoDeploy.onError e).commandName = "falcon:demo:deploy")
    ∧ (∀ resp, FalconDemoDeploy.run o = Except.ok resp → resp.status = 0) := by
  refine ⟨?_, ?_, ?_⟩
  · intro r hr
    subst hr
    rfl
  · intro e he
    subst he
    exact ⟨rfl, rfl⟩
  · intro resp h
    cases o with
    | ok r =>
      simp [FalconDemoDeploy.run] at h
      rw [← h]
    | error e => simp [FalconDemoDeploy.run] at h

/-- Witness for C6 (amended): a concrete success resolves with status 0
and a concrete validation failure rejects with the onError error. -/
theorem FalconDemoDeploy.run_spec_witness :
    FalconDemoDeploy.run (Except.ok (42 : Nat))
      = Except.ok (⟨0, ResponseResult.report 42⟩ : FalconJsonResponse Nat)
    ∧ FalconDemoDeploy.run (Except.error c6FalconError : Except FalconError Unit)
      = Except.error (FalconDemoDeploy.onError c6FalconError) :=
  ⟨(FalconDemoDeploy.run_spec (Except.ok (42 : Nat))).1 42 rfl,
   ((FalconDemoDeploy.run_spec (Except.error c6FalconError : Except FalconError Unit)).2.1
      c6FalconError rfl).1⟩

/-- Claim C7: wrap is an idempotent normalization: wrapping the wrapped
value changes nothing, an SfdxFalconError2 is returned unchanged, any
other Error keeps its message, and a non-Error value becomes the message
via its string rendering. -/
theorem SfdxFalconError2.wrap_spec (x : ErrValue) :
    SfdxFalconError2.wrap (ErrValue.ofFalcon (SfdxFalconError2.wrap x)) = SfdxFalconError2.wrap x
    ∧ (∀ e, x = ErrValue.falconErr e → SfdxFalconError2.wrap x = e)
    ∧ (∀ n m, x = ErrValue.plainErr n m → (SfdxFalconError2.wrap x).message = m)
    ∧ (∀ r, x = ErrValue.nonError r → (SfdxFalconError2.wrap x).message = r) := by
  refine ⟨rfl, ?_, ?_, ?_⟩
  · intro e he
    subst he
    rfl
  · intro n m he
    subst he
    rfl
  · intro r he
    subst he
    rfl

/-- Witness for C7: a plain TypeError keeps its message, and wrapping a
wrapped non-Error value is the identity. -/
theorem SfdxFalconError2.wrap_spec_witness :
    (SfdxFalconError2.wrap (ErrValue.plainErr ("TypeError") ("bad value"))).message = "bad value"
    ∧ SfdxFalconError2.wrap (ErrValue.ofFalcon (SfdxFalconError2.wrap (ErrValue.nonError ("42"))))
      = SfdxFalconError2.wrap (ErrValue.nonError ("42")) :=
  ⟨(SfdxFalconError2.wrap_spec (ErrValue.plainErr ("TypeError") ("bad value"))).2.2.1
      ("TypeError") ("bad value") rfl,
   (SfdxFalconError2.wrap_spec (ErrValue.nonError ("42"))).1⟩

/-- Claim C10: with an acceptedProtocols filter, isGitUriValid is exactly
the conjunction of the general Git-URI pattern test and the protocol
pattern test, so a URI valid under a filter is valid without one. -/
theorem isGitUriValid_monotone (u : String) (p : String → Bool) :
    isGitUriValid u (some p) = (gitUriRegExTest u && p u)
    ∧ isGitUriValid u none = gitUriRegExTest u
    ∧ (isGitUriValid u (some p) = true → isGitUriValid u none = true) := by
  unfold isGitUriValid
  by_cases hg : gitUriRegExTest u = true
  · simp [hg]
  · simp [hg]

/-- Witness for C10: a concrete https URI accepted under an https-only
filter is also accepted by the unfiltered check. -/
theorem isGitUriValid_monotone_witness :
    isGitUriValid ("https://github.com/me/my-repo.git") none = true :=
  (isGitUriValid_monotone ("https://github.com/me/my-repo.git")
    (fun s => RegExp.test ("https") s)).2.2 (by rfl)
